import Mathlib

/-!
Verification of the btcfs inscription SDK sources.

Shallow embedding of the TypeScript sources under packages/sdk/src:
the inscription witness-script encoder (buildWitnessScript, chunkContent,
opPush), the Inscriber commit/reveal/recovery state machine, the generic
PSBT assembler (createPsbt, processInput), and the BRC20 balance checks
(BRC20TransferBase).

Conventions of the embedding:
* JS numbers that hold satoshi amounts and fees are modelled as `Int`.
* Node `Buffer`s are `List Nat` of byte values.
* Thrown exceptions are modelled with `Except SdkError`.
* External collaborators (datasource, fee estimator, bip32, address
  derivation) are passed in explicitly as function-valued environment
  records, mirroring the spec's section 6 interface list.
-/

/-- A byte buffer, as a list of byte values. -/
abbrev Bytes := List Nat

/-- Every error the modelled code can throw.  Each constructor corresponds to
one `throw new ...Error(message)` site in the sources; the message is noted on
the constructor. -/
inductive SdkError
  /-- OrditSDKError "Failed to build witness script" -/
  | failedToBuildWitnessScript
  /-- OrditSDKError "Data is too large to push. Use chunkContent to split data into smaller chunks" -/
  | dataTooLarge
  /-- OrditSDKError "Failed to build PSBT. Transaction not ready" -/
  | txNotReady
  /-- OrditSDKError "Invalid tx! Make sure you generate commit address or recover and finally build" -/
  | invalidTx
  /-- OrditSDKError "No UTXO found to recover" -/
  | noUtxoToRecover
  /-- OrditSDKError "Unable to process request in preview mode" -/
  | previewModeRestricted
  /-- OrditSDKError "Requested output amount is lower than minimum dust amount" -/
  | belowDustLimit
  /-- OrditSDKError "No selected utxos retrieved" -/
  | noSelectedUtxos
  /-- Error "Invalid request" -/
  | invalidRequest
  /-- Error "No spendable UTXOs" -/
  | noSpendableUtxos
  /-- Error "Insufficient balance. ..." -/
  | insufficientBalance
  /-- Error "invalid script pub type" -/
  | invalidScriptPubType
  /-- Error "Unable to process p2tr input" / "Unable to process Segwit input" / "Unable to process legacy input" -/
  | unableToProcessInput
  /-- bitcoinjs-lib Psbt error "Input index too high" -/
  | inputIndexTooHigh
  /-- Error "Owner does not have any balance for this token" -/
  | noBalanceForToken
  /-- Error "Invalid amount" -/
  | invalidAmount
  /-- Error "Invalid token" -/
  | invalidToken
  /-- A native JS TypeError, e.g. reading a property of undefined -/
  | typeError
deriving Repr, DecidableEq

/-- Modelled from the spec: `MAXIMUM_SCRIPT_ELEMENT_SIZE` lives in the
constants module, which is not under src/; section 3 of the spec fixes the
maximum script-element size at 520 bytes. -/
def MAXIMUM_SCRIPT_ELEMENT_SIZE : Nat := 520

/-- Modelled from the spec: `MINIMUM_AMOUNT_IN_SATS` (the network's minimum
spendable / dust amount) lives in the constants module, which is not under
src/; the spec gives no concrete value, so the embedding keeps it abstract as
a field of each environment record (see `InscriberEnv.minimumAmountInSats`
and `PsbtEnv.minimumAmountInSats`). -/
def minimumAmountDoc : Unit := ()

/-- UTF-8 encoding of one character (code point), as Node's utf8 encoder
produces for well-formed strings. -/
def utf8EncodeCharBytes (c : Char) : Bytes :=
  let n := c.toNat
  if n < 0x80 then [n]
  else if n < 0x800 then [0xC0 + n / 64, 0x80 + n % 64]
  else if n < 0x10000 then [0xE0 + n / 4096, 0x80 + (n / 64) % 64, 0x80 + n % 64]
  else [0xF0 + n / 262144, 0x80 + (n / 4096) % 64, 0x80 + (n / 64) % 64, 0x80 + n % 64]

/-- Models Node `Buffer.from(s, "utf8")`. -/
def utf8Bytes (s : String) : Bytes :=
  s.data.flatMap utf8EncodeCharBytes

/-- Value of one hexadecimal digit. -/
def hexDigitVal (c : Char) : Option Nat :=
  if '0' ≤ c ∧ c ≤ '9' then some (c.toNat - '0'.toNat)
  else if 'a' ≤ c ∧ c ≤ 'f' then some (c.toNat - 'a'.toNat + 10)
  else if 'A' ≤ c ∧ c ≤ 'F' then some (c.toNat - 'A'.toNat + 10)
  else none

/-- Models Node `Buffer.from(s, "hex")`: consumes hex-digit pairs, truncating
at the first invalid pair. -/
def hexDecodeList : List Char → Bytes
  | a :: b :: rest =>
    match hexDigitVal a, hexDigitVal b with
    | some x, some y => (x * 16 + y) :: hexDecodeList rest
    | _, _ => []
  | _ => []

/-- Models Node `Buffer.from(s, "hex")`. -/
def hexDecode (s : String) : Bytes := hexDecodeList s.data

/-- Value of one standard base64 alphabet character. -/
def base64CharVal (c : Char) : Option Nat :=
  if 'A' ≤ c ∧ c ≤ 'Z' then some (c.toNat - 'A'.toNat)
  else if 'a' ≤ c ∧ c ≤ 'z' then some (c.toNat - 'a'.toNat + 26)
  else if '0' ≤ c ∧ c ≤ '9' then some (c.toNat - '0'.toNat + 52)
  else if c = '+' then some 62
  else if c = '/' then some 63
  else none

/-- Turns a list of 6-bit values into bytes, 4 values to 3 bytes, with the
usual handling of a 2- or 3-value tail. -/
def base64DecodeVals : List Nat → Bytes
  | a :: b :: c :: d :: rest =>
    (a * 4 + b / 16) :: ((b % 16) * 16 + c / 4) :: ((c % 4) * 64 + d) :: base64DecodeVals rest
  | [a, b] => [a * 4 + b / 16]
  | [a, b, c] => [a * 4 + b / 16, (b % 16) * 16 + c / 4]
  | _ => []

/-- Models Node `Buffer.from(s, "base64")` for well-formed input: padding and
characters outside the base64 alphabet are skipped, the remaining 6-bit values
are packed into bytes. -/
def base64Decode (s : String) : Bytes :=
  base64DecodeVals (s.data.filterMap base64CharVal)

/-- The standard base64 alphabet. -/
def base64Chars : List Char :=
  "ABCDEFGHIJKLMNOPQRSTUVWXYZabcdefghijklmnopqrstuvwxyz0123456789+/".data

/-- The base64 alphabet character for a 6-bit value. -/
def base64Chr (n : Nat) : Char := base64Chars.getD n 'A'

/-- Groups bytes 3-at-a-time into base64 characters with `=` padding. -/
def base64EncodeGroups : Bytes → List Char
  | a :: b :: c :: rest =>
    base64Chr (a / 4) :: base64Chr ((a % 4) * 16 + b / 16) ::
      base64Chr ((b % 16) * 4 + c / 64) :: base64Chr (c % 64) :: base64EncodeGroups rest
  | [a] => [base64Chr (a / 4), base64Chr ((a % 4) * 16), '=', '=']
  | [a, b] => [base64Chr (a / 4), base64Chr ((a % 4) * 16 + b / 16), base64Chr ((b % 16) * 4), '=']
  | [] => []

/-- Standard base64 encoding of a byte sequence (used to state the spec's
claim that content is base64-encoded; the source itself only ever decodes). -/
def base64Encode (b : Bytes) : String := String.mk (base64EncodeGroups b)

/-- The `BufferEncoding` argument of `chunkContent`: only these two encodings
are ever passed in the sources. -/
inductive BufferEncoding
  | utf8
  | base64
deriving Repr, DecidableEq

/-- Models `Buffer.from(str, encoding)` as used by `chunkContent`. -/
def bufferFrom (s : String) : BufferEncoding → Bytes
  | .utf8 => utf8Bytes s
  | .base64 => base64Decode s

/-- JS `s.includes(sub)` on strings: substring containment. -/
def strIncludes (s sub : String) : Bool :=
  (List.range (s.data.length + 1)).any fun i => sub.data.isPrefixOf (s.data.drop i)

/-- The while-loop of `chunkContent`, fuel-indexed so that it is structural
(`b.length` fuel always suffices, see `chunkContentLoop_eq`): take
`MAXIMUM_SCRIPT_ELEMENT_SIZE`-byte slices off the front of the buffer until
it is exhausted. -/
def chunkContentGo : Nat → Bytes → List Bytes
  | _, [] => []
  | 0, _ :: _ => []
  | fuel + 1, x :: rest =>
    (x :: rest).take MAXIMUM_SCRIPT_ELEMENT_SIZE
      :: chunkContentGo fuel ((x :: rest).drop MAXIMUM_SCRIPT_ELEMENT_SIZE)

/-- The while-loop of `chunkContent` (witness.ts lines 106 to 110). -/
def chunkContentLoop (b : Bytes) : List Bytes := chunkContentGo b.length b

/-- The fuel argument of `chunkContentGo` is irrelevant once it covers the
buffer length. -/
theorem chunkContentGo_fuel_irrel :
    ∀ fuel fuel2 b, b.length ≤ fuel → b.length ≤ fuel2 →
      chunkContentGo fuel b = chunkContentGo fuel2 b := by
  intro fuel
  induction fuel with
  | zero =>
    intro fuel2 b hb _
    have : b = [] := List.eq_nil_of_length_eq_zero (Nat.le_zero.mp hb)
    subst this
    cases fuel2 <;> rfl
  | succ n ih =>
    intro fuel2 b hb hb2
    cases b with
    | nil => cases fuel2 <;> rfl
    | cons x rest =>
      cases fuel2 with
      | zero => simp at hb2
      | succ m =>
        simp only [chunkContentGo]
        congr 1
        apply ih
        · simp only [List.length_drop, List.length_cons, MAXIMUM_SCRIPT_ELEMENT_SIZE]
          simp only [List.length_cons] at hb
          omega
        · simp only [List.length_drop, List.length_cons, MAXIMUM_SCRIPT_ELEMENT_SIZE]
          simp only [List.length_cons] at hb2
          omega

/-- `chunkContentLoop` satisfies the natural unfolding equation of the
source's while loop. -/
theorem chunkContentLoop_eq (b : Bytes) :
    chunkContentLoop b =
      if b = [] then []
      else b.take MAXIMUM_SCRIPT_ELEMENT_SIZE
        :: chunkContentLoop (b.drop MAXIMUM_SCRIPT_ELEMENT_SIZE) := by
  cases b with
  | nil => rfl
  | cons x rest =>
    simp only [chunkContentLoop, List.length_cons, chunkContentGo, if_neg (List.cons_ne_nil x rest)]
    congr 1
    apply chunkContentGo_fuel_irrel
    · simp only [List.length_drop, List.length_cons, MAXIMUM_SCRIPT_ELEMENT_SIZE]
      omega
    · exact Nat.le_refl _

/-- `chunkContent(str, encoding)` from witness.ts.  Note the source's guard
`Buffer.isBuffer(Buffer)` is constant false (it tests the `Buffer` class
itself, not the argument), so the string conversion `Buffer.from(str,
encoding)` is always taken; when a Buffer is passed instead, `Buffer.from`
copies its bytes unchanged, see `chunkContentBuffer`. -/
def chunkContent (s : String) (encoding : BufferEncoding := .utf8) : List Bytes :=
  chunkContentLoop (bufferFrom s encoding)

/-- `chunkContent` applied to an already-materialised Buffer: `Buffer.from`
on a Buffer copies the bytes unchanged, so the while-loop runs on the input
bytes directly. -/
def chunkContentBuffer (b : Bytes) : List Bytes := chunkContentLoop b

/-- One element of the array handed to `bitcoin.script.compile`: either a raw
opcode number or a Buffer to be pushed.  The compile step itself belongs to
bitcoinjs-lib, an external collaborator, so the embedding stays at the
element-sequence level. -/
inductive ScriptElement
  | num (n : Nat)
  | buf (b : Bytes)
deriving Repr, DecidableEq

/-- bitcoinjs opcode OP_FALSE. -/
def OP_FALSE : Nat := 0
/-- bitcoinjs opcode OP_0 (same byte as OP_FALSE). -/
def OP_0 : Nat := 0
/-- bitcoinjs opcode OP_IF. -/
def OP_IF : Nat := 99
/-- bitcoinjs opcode OP_ENDIF. -/
def OP_ENDIF : Nat := 104
/-- bitcoinjs opcode OP_CHECKSIG. -/
def OP_CHECKSIG : Nat := 172

/-- `opPush` from witness.ts: rejects data longer than
`MAXIMUM_SCRIPT_ELEMENT_SIZE`; otherwise returns the bytes (the source's
`Buffer.concat([buff])` is a copy).  Call sites that pass a string are
modelled by applying `utf8Bytes` first, matching `Buffer.from(data, "utf8")`. -/
def opPush (data : Bytes) : Except SdkError Bytes :=
  if MAXIMUM_SCRIPT_ELEMENT_SIZE < data.length then .error .dataTooLarge
  else .ok data

/-- `chunks.map(opPush)` under JS exception semantics: the first throw aborts
the whole map. -/
def opPushAll : List Bytes → Except SdkError (List Bytes)
  | [] => .ok []
  | c :: rest =>
    match opPush c with
    | .error e => .error e
    | .ok b =>
      match opPushAll rest with
      | .error e => .error e
      | .ok bs => .ok (b :: bs)

/-- A value that is either a single string or an array of strings, as the
`mediaContent` / `mediaType` fields of `WitnessScriptOptions` allow. -/
inductive StrOrArr
  | str (s : String)
  | arr (l : List String)
deriving Repr, DecidableEq

/-- JS truthiness test `!x` for mediaContent / mediaType: an empty string is
falsy, an array is always truthy (even when empty). -/
def jsFalsy : StrOrArr → Bool
  | .str s => s.isEmpty
  | .arr _ => false

/-- JS `x.includes("text")` for the single-item branch: substring containment
on a string, element membership on an array. -/
def includesTextJS : StrOrArr → Bool
  | .str s => strIncludes s "text"
  | .arr l => l.contains "text"

/-- JS `Buffer.from(mediaType, "utf8")` for the single-item branch's
`opPush(options.mediaType as string)`: on a string, its utf8 bytes; on an
array, Node coerces each element to a number, strings giving NaN and hence
byte 0. -/
def mediaTypeBytesJS : StrOrArr → Bytes
  | .str s => utf8Bytes s
  | .arr l => l.map fun _ => 0

/-- JS indexing `mediaType[index]`: array element, or the index-th character
of a string as a one-character string; `none` models `undefined`. -/
def atIdxJS : StrOrArr → Nat → Option String
  | .str s, i => (s.data.get? i).map fun c => String.mk [c]
  | .arr l, i => l.get? i

/-- `WitnessScriptOptions` from witness.ts.  `meta` is `any` in the source
and only its `typeof meta === "object"` branch matters; the embedding carries
`some j` for an object whose `JSON.stringify` result is `j`, and `none` for
any non-object value (including the `meta: false` used for the
inscription-only leaf). -/
structure WitnessScriptOptions where
  xkey : String
  mediaContent : StrOrArr
  mediaType : StrOrArr
  meta : Option String := none
  recover : Bool := false

/-- The metadata stack elements built at witness.ts lines 19 to 38 when
`typeof meta === "object"`: an OP_FALSE/OP_IF block tagged "DOB", markers 1 1,
the fixed content type `application/json;charset=utf-8`, OP_0, the utf8
chunks of the serialized metadata, and OP_ENDIF.  (The source's
`metaChunks && ...` guards are always taken: an array is truthy even when
empty.) -/
def metaEnvelope (meta : Option String) : Except SdkError (List ScriptElement) :=
  match meta with
  | none => .ok []
  | some j =>
    match opPush (utf8Bytes "DOB") with
    | .error e => .error e
    | .ok tagBytes =>
      match opPush (utf8Bytes "application/json;charset=utf-8") with
      | .error e => .error e
      | .ok ctype =>
        match opPushAll (chunkContent j .utf8) with
        | .error e => .error e
        | .ok chunks =>
          .ok ([.num OP_FALSE, .num OP_IF, .buf tagBytes, .num 1, .num 1, .buf ctype, .num OP_0]
            ++ chunks.map ScriptElement.buf ++ [.num OP_ENDIF])

/-- The per-item map of the batch branch (witness.ts lines 47 to 61): for each
content string, look up `mediaType[index]`, choose base64 decoding unless the
media type includes "text", chunk, and emit a full OP_FALSE..OP_ENDIF block;
the blocks are concatenated in array order (the source's `.map` then
`.flat()`). -/
def multiContentBlocks (mediaType : StrOrArr) : Nat → List String → Except SdkError (List ScriptElement)
  | _, [] => .ok []
  | index, content :: rest =>
    match atIdxJS mediaType index with
    | none => .error .typeError
    | some mt =>
      let encoding := if strIncludes mt "text" then BufferEncoding.utf8 else BufferEncoding.base64
      match opPushAll (chunkContent content encoding) with
      | .error e => .error e
      | .ok chunks =>
        match opPush (utf8Bytes "DOB") with
        | .error e => .error e
        | .ok tagBytes =>
          match opPush (utf8Bytes mt) with
          | .error e => .error e
          | .ok mtp =>
            match multiContentBlocks mediaType (index + 1) rest with
            | .error e => .error e
            | .ok restElems =>
              .ok ([.num OP_FALSE, .num OP_IF, .buf tagBytes, .num 1, .num 1, .buf mtp, .num OP_0]
                ++ chunks.map ScriptElement.buf ++ [.num OP_ENDIF] ++ restElems)

/-- `buildWitnessScript` from witness.ts, at the script-element level (the
final `bitcoin.script.compile` serialisation is external).  Checks the
missing-field guard, short-circuits to the recovery script, otherwise builds
the metadata elements and then either the batch blocks or the single-item
envelope. -/
def buildWitnessScript (o : WitnessScriptOptions) : Except SdkError (List ScriptElement) :=
  if jsFalsy o.mediaType || jsFalsy o.mediaContent || o.xkey.isEmpty then
    .error .failedToBuildWitnessScript
  else if o.recover then
    .ok [.buf (hexDecode o.xkey), .num OP_CHECKSIG]
  else
    match metaEnvelope o.meta with
    | .error e => .error e
    | .ok metaStackElements =>
      match o.mediaContent with
      | .arr contents =>
        match multiContentBlocks o.mediaType 0 contents with
        | .error e => .error e
        | .ok blocks =>
          .ok ([.buf (hexDecode o.xkey), .num OP_CHECKSIG] ++ blocks)
      | .str content =>
        let encoding := if includesTextJS o.mediaType then BufferEncoding.utf8 else BufferEncoding.base64
        match opPushAll (chunkContent content encoding) with
        | .error e => .error e
        | .ok chunks =>
          match opPush (utf8Bytes "DOB") with
          | .error e => .error e
          | .ok tagBytes =>
            match opPush (mediaTypeBytesJS o.mediaType) with
            | .error e => .error e
            | .ok mtp =>
              .ok ([.buf (hexDecode o.xkey), .num OP_CHECKSIG, .num OP_FALSE, .num OP_IF,
                    .buf tagBytes, .num 1, .num 1, .buf mtp, .num OP_0]
                ++ chunks.map ScriptElement.buf ++ [.num OP_ENDIF] ++ metaStackElements)

/-! ### Properties of the chunking loop (claim C3) -/

theorem chunkContentGo_flatten :
    ∀ fuel b, b.length ≤ fuel → (chunkContentGo fuel b).flatten = b := by
  intro fuel
  induction fuel with
  | zero =>
    intro b hb
    have : b = [] := List.eq_nil_of_length_eq_zero (Nat.le_zero.mp hb)
    subst this
    rfl
  | succ n ih =>
    intro b hb
    cases b with
    | nil => rfl
    | cons x rest =>
      simp only [chunkContentGo, List.flatten_cons]
      rw [ih]
      · exact List.take_append_drop _ _
      · simp only [List.length_drop, List.length_cons, MAXIMUM_SCRIPT_ELEMENT_SIZE]
        simp only [List.length_cons] at hb
        omega

theorem chunkContentGo_length :
    ∀ fuel b, b.length ≤ fuel →
      (chunkContentGo fuel b).length =
        (b.length + (MAXIMUM_SCRIPT_ELEMENT_SIZE - 1)) / MAXIMUM_SCRIPT_ELEMENT_SIZE := by
  intro fuel
  induction fuel with
  | zero =>
    intro b hb
    have : b = [] := List.eq_nil_of_length_eq_zero (Nat.le_zero.mp hb)
    subst this
    rfl
  | succ n ih =>
    intro b hb
    cases b with
    | nil => rfl
    | cons x rest =>
      simp only [chunkContentGo, List.length_cons]
      rw [ih]
      · simp only [List.length_drop, List.length_cons, MAXIMUM_SCRIPT_ELEMENT_SIZE]
        omega
      · simp only [List.length_drop, List.length_cons, MAXIMUM_SCRIPT_ELEMENT_SIZE]
        simp only [List.length_cons] at hb
        omega

theorem chunkContentGo_sizes :
    ∀ fuel b, ∀ c ∈ chunkContentGo fuel b, c.length ≤ MAXIMUM_SCRIPT_ELEMENT_SIZE := by
  intro fuel
  induction fuel with
  | zero =>
    intro b c hc
    cases b <;> simp [chunkContentGo] at hc
  | succ n ih =>
    intro b c hc
    cases b with
    | nil => simp [chunkContentGo] at hc
    | cons x rest =>
      simp only [chunkContentGo, List.mem_cons] at hc
      rcases hc with hc | hc
      · subst hc
        simp
      · exact ih _ _ hc

/-- C3: for every content byte sequence and maximum element size 520,
`chunkContent` returns chunks whose in-order concatenation is the original
bytes, whose count is the ceiling of length over 520 (zero for empty
content), and each of whose lengths is at most 520. -/
theorem chunking_roundtrip (b : Bytes) :
    (chunkContentBuffer b).flatten = b ∧
    (chunkContentBuffer b).length = (if b.length = 0 then 0 else (b.length + 519) / 520) ∧
    ∀ c ∈ chunkContentBuffer b, c.length ≤ 520 := by
  refine ⟨chunkContentGo_flatten _ _ (Nat.le_refl _), ?_, ?_⟩
  · rw [chunkContentBuffer, chunkContentLoop, chunkContentGo_length _ _ (Nat.le_refl _)]
    simp only [MAXIMUM_SCRIPT_ELEMENT_SIZE]
    by_cases h : b.length = 0
    · rw [if_pos h, h]
    · rw [if_neg h]
  · intro c hc
    have := chunkContentGo_sizes _ _ c hc
    simpa [MAXIMUM_SCRIPT_ELEMENT_SIZE] using this

/-- Witness for `chunking_roundtrip` at the concrete buffer `[1, 2, 3]`. -/
theorem chunking_roundtrip_witness :
    (chunkContentBuffer [1, 2, 3]).flatten = [1, 2, 3] ∧
    (chunkContentBuffer [1, 2, 3]).length = 1 ∧
    ([1, 2, 3] : Bytes).length ≤ 520 :=
  ⟨(chunking_roundtrip [1, 2, 3]).1,
   by rw [(chunking_roundtrip [1, 2, 3]).2.1]; decide,
   (chunking_roundtrip [1, 2, 3]).2.2 [1, 2, 3] (by decide)⟩

/-! ### Structure of the emitted envelope (claims C4, C5, C6, C9) -/

theorem chunkContent_sizes (s : String) (encoding : BufferEncoding) :
    ∀ c ∈ chunkContent s encoding, c.length ≤ MAXIMUM_SCRIPT_ELEMENT_SIZE :=
  fun c hc => chunkContentGo_sizes _ _ c hc

theorem opPush_ok (b : Bytes) (h : b.length ≤ MAXIMUM_SCRIPT_ELEMENT_SIZE) :
    opPush b = .ok b := by
  unfold opPush
  rw [if_neg (by omega)]

theorem opPushAll_ok (l : List Bytes)
    (h : ∀ c ∈ l, c.length ≤ MAXIMUM_SCRIPT_ELEMENT_SIZE) : opPushAll l = .ok l := by
  induction l with
  | nil => rfl
  | cons c rest ih =>
    simp only [opPushAll, opPush_ok c (h c (by simp)), ih fun x hx => h x (by simp [hx])]

/-- The metadata block that `metaEnvelope` produces when it does not throw. -/
def metaElems : Option String → List ScriptElement
  | none => []
  | some j =>
    [.num OP_FALSE, .num OP_IF, .buf (utf8Bytes "DOB"), .num 1, .num 1,
     .buf (utf8Bytes "application/json;charset=utf-8"), .num OP_0]
    ++ (chunkContent j .utf8).map ScriptElement.buf ++ [.num OP_ENDIF]

theorem metaEnvelope_eq (meta : Option String) : metaEnvelope meta = .ok (metaElems meta) := by
  cases meta with
  | none => rfl
  | some j =>
    simp only [metaEnvelope, metaElems,
      opPush_ok _ (by decide : (utf8Bytes "DOB").length ≤ MAXIMUM_SCRIPT_ELEMENT_SIZE),
      opPush_ok _ (by decide :
        (utf8Bytes "application/json;charset=utf-8").length ≤ MAXIMUM_SCRIPT_ELEMENT_SIZE),
      opPushAll_ok _ (chunkContent_sizes j .utf8)]

/-- Evaluation of `buildWitnessScript` in the single-item, non-recover branch,
for any truthy inputs whose media-type push fits one script element. -/
theorem buildWitnessScript_single_eq (xkey content : String) (mt : StrOrArr) (meta : Option String)
    (hmt : jsFalsy mt = false) (hc : content.isEmpty = false) (hx : xkey.isEmpty = false)
    (hlen : (mediaTypeBytesJS mt).length ≤ MAXIMUM_SCRIPT_ELEMENT_SIZE) :
    buildWitnessScript ⟨xkey, .str content, mt, meta, false⟩ =
      .ok ([.buf (hexDecode xkey), .num OP_CHECKSIG, .num OP_FALSE, .num OP_IF,
            .buf (utf8Bytes "DOB"), .num 1, .num 1, .buf (mediaTypeBytesJS mt), .num OP_0]
        ++ (chunkContent content (if includesTextJS mt then .utf8 else .base64)).map
            ScriptElement.buf
        ++ [.num OP_ENDIF] ++ metaElems meta) := by
  simp only [buildWitnessScript, hmt, hx, (show jsFalsy (.str content) = false from hc),
    Bool.or_self, Bool.or_false, Bool.false_or, Bool.false_eq_true, if_false, metaEnvelope_eq,
    opPushAll_ok _ (chunkContent_sizes content _),
    opPush_ok _ (by decide : (utf8Bytes "DOB").length ≤ MAXIMUM_SCRIPT_ELEMENT_SIZE),
    opPush_ok _ hlen]

/-- The OP_FALSE..OP_ENDIF block emitted for one batch item whose media type
is `mt` and whose content string is `content`. -/
def itemBlock (mt content : String) : List ScriptElement :=
  [.num OP_FALSE, .num OP_IF, .buf (utf8Bytes "DOB"), .num 1, .num 1,
   .buf (utf8Bytes mt), .num OP_0]
  ++ (chunkContent content (if strIncludes mt "text" then .utf8 else .base64)).map
      ScriptElement.buf
  ++ [.num OP_ENDIF]

/-- Evaluation of the batch map: when the media-type array covers the content
array and every media-type push fits one script element, the emitted elements
are the per-item blocks in array order. -/
theorem multiContentBlocks_eq (tysFull : List String)
    (h520 : ∀ mt ∈ tysFull, (utf8Bytes mt).length ≤ MAXIMUM_SCRIPT_ELEMENT_SIZE) :
    ∀ (contents tys : List String) (start : Nat),
      tysFull.drop start = tys → contents.length ≤ tys.length →
      multiContentBlocks (.arr tysFull) start contents =
        .ok (List.zipWith itemBlock tys contents).flatten := by
  intro contents
  induction contents with
  | nil =>
    intro tys start _ _
    simp [multiContentBlocks]
  | cons content rest ih =>
    intro tys start hdrop hlen
    cases tys with
    | nil => simp at hlen
    | cons mt trest =>
      have hget : tysFull.get? start = some mt := by
        have h0 := List.get?_drop tysFull start 0
        rw [hdrop] at h0
        simpa using h0.symm
      have hmem : mt ∈ tysFull := by
        refine List.mem_of_mem_drop (n := start) ?_
        rw [hdrop]
        simp
      have hdrop1 : tysFull.drop (start + 1) = trest := by
        have h1 := List.drop_drop 1 start tysFull
        rw [hdrop] at h1
        simpa using h1.symm
      have hlen1 : rest.length ≤ trest.length := by
        simp only [List.length_cons] at hlen
        omega
      simp only [multiContentBlocks, atIdxJS, hget,
        opPushAll_ok _ (chunkContent_sizes content _),
        opPush_ok _ (by decide : (utf8Bytes "DOB").length ≤ MAXIMUM_SCRIPT_ELEMENT_SIZE),
        opPush_ok _ (h520 mt hmem),
        ih trest (start + 1) hdrop1 hlen1]
      simp [itemBlock, List.zipWith_cons_cons]

theorem count_buf_map_zero (n : Nat) (l : List Bytes) :
    (l.map ScriptElement.buf).count (.num n) = 0 := by
  rw [List.count_eq_zero]
  simp

theorem itemBlock_count_checksig (mt content : String) :
    (itemBlock mt content).count (.num OP_CHECKSIG) = 0 := by
  simp [itemBlock, List.count_append, List.count_cons, count_buf_map_zero,
    OP_FALSE, OP_IF, OP_0, OP_ENDIF, OP_CHECKSIG]

theorem zipWith_itemBlock_count_checksig :
    ∀ tys contents : List String,
      ((List.zipWith itemBlock tys contents).flatten).count (.num OP_CHECKSIG) = 0 := by
  intro tys
  induction tys with
  | nil => intro contents; simp
  | cons mt trest ih =>
    intro contents
    cases contents with
    | nil => simp
    | cons c crest =>
      simp [List.zipWith_cons_cons, List.count_append, itemBlock_count_checksig, ih]

/-- C4: a single-item, non-recover call with truthy media type, content and
internal key emits the prefix `internalKey CHECKSIG` followed by exactly one
OP_FALSE..OP_ENDIF block holding, in order, the protocol tag push, the two
integer 1 markers, the media-type push, OP_0 and the content chunk pushes;
a supplied metadata object appends one structurally identical block tagged
`application/json;charset=utf-8` carrying the chunked serialized metadata. -/
theorem single_item_envelope (xkey content mtype : String) (meta : Option String)
    (hmt : mtype.isEmpty = false) (hc : content.isEmpty = false) (hx : xkey.isEmpty = false)
    (hlen : (utf8Bytes mtype).length ≤ MAXIMUM_SCRIPT_ELEMENT_SIZE) :
    buildWitnessScript ⟨xkey, .str content, .str mtype, meta, false⟩ =
      .ok ([.buf (hexDecode xkey), .num OP_CHECKSIG, .num OP_FALSE, .num OP_IF,
            .buf (utf8Bytes "DOB"), .num 1, .num 1, .buf (utf8Bytes mtype), .num OP_0]
        ++ (chunkContent content
              (if strIncludes mtype "text" then .utf8 else .base64)).map ScriptElement.buf
        ++ [.num OP_ENDIF] ++ metaElems meta) ∧
    ∀ s, buildWitnessScript ⟨xkey, .str content, .str mtype, meta, false⟩ = .ok s →
      s.count (.num OP_ENDIF) = if meta.isSome then 2 else 1 := by
  have h1 := buildWitnessScript_single_eq xkey content (.str mtype) meta hmt hc hx hlen
  refine ⟨h1, fun s hs => ?_⟩
  rw [h1] at hs
  injection hs with hs
  subst hs
  cases meta with
  | none =>
    simp [metaElems, List.count_append, List.count_cons, count_buf_map_zero,
      OP_FALSE, OP_IF, OP_0, OP_ENDIF, OP_CHECKSIG]
  | some j =>
    simp [metaElems, List.count_append, List.count_cons, count_buf_map_zero,
      OP_FALSE, OP_IF, OP_0, OP_ENDIF, OP_CHECKSIG]

/-- Witness for `single_item_envelope` with media type image/png and content
"AB". -/
theorem single_item_envelope_witness :
    buildWitnessScript ⟨"02", .str "AB", .str "image/png", some "\x7b\x7d", false⟩ =
      .ok ([.buf (hexDecode "02"), .num OP_CHECKSIG, .num OP_FALSE, .num OP_IF,
            .buf (utf8Bytes "DOB"), .num 1, .num 1, .buf (utf8Bytes "image/png"), .num OP_0]
        ++ (chunkContent "AB"
              (if strIncludes "image/png" "text" then .utf8 else .base64)).map ScriptElement.buf
        ++ [.num OP_ENDIF] ++ metaElems (some "\x7b\x7d")) :=
  (single_item_envelope "02" "AB" "image/png" (some "\x7b\x7d")
    (by decide) (by decide) (by decide) (by decide)).1

/-- C5: for array-valued media content the internalKey/CHECKSIG prefix is
emitted exactly once, at the start, and each item contributes its own
complete OP_FALSE..OP_ENDIF block in array order; no metadata block is
emitted even when a metadata object is supplied (the right-hand side does
not depend on `meta`). -/
theorem batch_envelope (xkey : String) (contents tys : List String) (meta : Option String)
    (hx : xkey.isEmpty = false) (hlen : contents.length ≤ tys.length)
    (h520 : ∀ mt ∈ tys, (utf8Bytes mt).length ≤ MAXIMUM_SCRIPT_ELEMENT_SIZE) :
    buildWitnessScript ⟨xkey, .arr contents, .arr tys, meta, false⟩ =
      .ok ([.buf (hexDecode xkey), .num OP_CHECKSIG]
        ++ (List.zipWith itemBlock tys contents).flatten) ∧
    ∀ s, buildWitnessScript ⟨xkey, .arr contents, .arr tys, meta, false⟩ = .ok s →
      s.count (.num OP_CHECKSIG) = 1 := by
  have h1 : buildWitnessScript ⟨xkey, .arr contents, .arr tys, meta, false⟩ =
      .ok ([.buf (hexDecode xkey), .num OP_CHECKSIG]
        ++ (List.zipWith itemBlock tys contents).flatten) := by
    simp only [buildWitnessScript, hx, (show jsFalsy (.arr tys) = false from rfl),
      (show jsFalsy (.arr contents) = false from rfl),
      Bool.or_self, Bool.or_false, Bool.false_or, Bool.false_eq_true, if_false,
      metaEnvelope_eq,
      multiContentBlocks_eq tys h520 contents tys 0 (List.drop_zero tys) hlen]
  refine ⟨h1, fun s hs => ?_⟩
  rw [h1] at hs
  injection hs with hs
  subst hs
  rw [List.count_append, zipWith_itemBlock_count_checksig]
  simp [List.count_cons]

/-- Witness for `batch_envelope` with two items. -/
theorem batch_envelope_witness :
    buildWitnessScript
        ⟨"02", .arr ["AA", "hello"], .arr ["image/png", "text/plain"], some "\x7b\x7d", false⟩ =
      .ok ([.buf (hexDecode "02"), .num OP_CHECKSIG]
        ++ (List.zipWith itemBlock ["image/png", "text/plain"] ["AA", "hello"]).flatten) :=
  (batch_envelope "02" ["AA", "hello"] ["image/png", "text/plain"] (some "\x7b\x7d")
    (by decide) (by decide) (by decide)).1

/-- C6 counterexample: for the non-text batch item "AAAA" (media type
image/png) the emitted content push is the base64 *decoding* `[0, 0, 0]` of
the content string, not a chunk of the base64 *encoding* of its bytes, which
would be the bytes of "QUFBQQ==". -/
theorem batch_base64_claim_counterexample :
    buildWitnessScript ⟨"02", .arr ["AAAA"], .arr ["image/png"], none, false⟩ =
      .ok [.buf [2], .num OP_CHECKSIG, .num OP_FALSE, .num OP_IF, .buf [68, 79, 66],
           .num 1, .num 1, .buf [105, 109, 97, 103, 101, 47, 112, 110, 103], .num OP_0,
           .buf [0, 0, 0], .num OP_ENDIF] ∧
    chunkContentLoop (utf8Bytes (base64Encode (utf8Bytes "AAAA"))) ≠ [[0, 0, 0]] := by
  constructor
  · rfl
  · decide

/-- C6 as amended: a batch item's content string is *interpreted as base64
and decoded* to raw bytes before chunking when its media type does not
contain "text"; for a text media type the string's UTF-8 bytes are chunked
directly. -/
theorem batch_encoding_selection (xkey : String) (contents tys : List String)
    (meta : Option String) (hx : xkey.isEmpty = false)
    (hlen : contents.length ≤ tys.length)
    (h520 : ∀ mt ∈ tys, (utf8Bytes mt).length ≤ MAXIMUM_SCRIPT_ELEMENT_SIZE) :
    buildWitnessScript ⟨xkey, .arr contents, .arr tys, meta, false⟩ =
      .ok ([.buf (hexDecode xkey), .num OP_CHECKSIG]
        ++ (List.zipWith
              (fun mt content =>
                [ScriptElement.num OP_FALSE, .num OP_IF, .buf (utf8Bytes "DOB"),
                 .num 1, .num 1, .buf (utf8Bytes mt), .num OP_0]
                ++ (chunkContentLoop (if strIncludes mt "text" then utf8Bytes content
                      else base64Decode content)).map ScriptElement.buf
                ++ [.num OP_ENDIF])
              tys contents).flatten) := by
  have hfun : itemBlock = fun mt content =>
      [ScriptElement.num OP_FALSE, .num OP_IF, .buf (utf8Bytes "DOB"),
       .num 1, .num 1, .buf (utf8Bytes mt), .num OP_0]
      ++ (chunkContentLoop (if strIncludes mt "text" then utf8Bytes content
            else base64Decode content)).map ScriptElement.buf
      ++ [.num OP_ENDIF] := by
    funext mt content
    simp only [itemBlock, chunkContent]
    rw [apply_ite (bufferFrom content)]
    rfl
  rw [← hfun]
  simp only [buildWitnessScript, hx, (show jsFalsy (.arr tys) = false from rfl),
    (show jsFalsy (.arr contents) = false from rfl),
    Bool.or_self, Bool.or_false, Bool.false_or, Bool.false_eq_true, if_false,
    metaEnvelope_eq,
    multiContentBlocks_eq tys h520 contents tys 0 (List.drop_zero tys) hlen]

/-- Witness for `batch_encoding_selection`: one base64 item and one text
item. -/
theorem batch_encoding_selection_witness :
    buildWitnessScript ⟨"02", .arr ["AAAA", "hi"], .arr ["image/png", "text/plain"], none, false⟩ =
      .ok ([.buf (hexDecode "02"), .num OP_CHECKSIG]
        ++ (List.zipWith
              (fun mt content =>
                [ScriptElement.num OP_FALSE, .num OP_IF, .buf (utf8Bytes "DOB"),
                 .num 1, .num 1, .buf (utf8Bytes mt), .num OP_0]
                ++ (chunkContentLoop (if strIncludes mt "text" then utf8Bytes content
                      else base64Decode content)).map ScriptElement.buf
                ++ [.num OP_ENDIF])
              ["image/png", "text/plain"] ["AAAA", "hi"]).flatten) :=
  batch_encoding_selection "02" ["AAAA", "hi"] ["image/png", "text/plain"] none
    (by decide) (by decide) (by decide)

/-- C9 as amended: with `recover = true` the missing-field guard still runs
first, but "empty" means JS-falsy: an empty *string* media type, media
content or internal key makes the call throw the missing-field error, while
an empty *array* is truthy and passes the guard. -/
theorem recover_missing_field_guard (o : WitnessScriptOptions) (_hrec : o.recover = true)
    (h : jsFalsy o.mediaType = true ∨ jsFalsy o.mediaContent = true ∨ o.xkey.isEmpty = true) :
    buildWitnessScript o = .error .failedToBuildWitnessScript := by
  unfold buildWitnessScript
  rcases h with h | h | h <;> simp [h]

/-- Witness for `recover_missing_field_guard`: empty media type string, in
recovery mode. -/
theorem recover_missing_field_guard_witness :
    buildWitnessScript ⟨"02", .str "AB", .str "", none, true⟩ =
      .error .failedToBuildWitnessScript :=
  recover_missing_field_guard ⟨"02", .str "AB", .str "", none, true⟩ rfl
    (Or.inl (by decide))

/-- C9 counterexample: an *empty array* media content is empty but truthy,
so the guard does not throw; the recovery script is returned. -/
theorem recover_missing_field_claim_counterexample :
    buildWitnessScript ⟨"02", .arr [], .str "image/png", none, true⟩ =
      .ok [.buf [2], .num OP_CHECKSIG] := by
  rfl

/-! ### The Inscriber commit/reveal/recovery state machine (claims C1, C2) -/

/-- `UTXOLimited` from the transaction types: the fields of a funding output
the Inscriber consumes. -/
structure UTXOLimited where
  txid : String
  n : Nat
  sats : Int
deriving Repr, DecidableEq

/-- One transaction output as the Inscriber records it. -/
structure Output where
  address : String
  value : Int
deriving Repr, DecidableEq

/-- Modelled from the spec: the Taproot payment object produced by
bitcoinjs-lib `payments.p2tr` / the `createTransaction` helper (both external
collaborators); only the derived address is consumed by the modelled paths. -/
structure Payment where
  address : String
deriving Repr, DecidableEq

/-- The three witness scripts the Inscriber builds. -/
structure WitnessScripts where
  inscription : List ScriptElement
  inscriptionOnly : List ScriptElement
  recovery : List ScriptElement
deriving Repr, DecidableEq

/-- The `Taptree` shape handed to bitcoinjs-lib. -/
inductive TapTree
  | leaf (output : List ScriptElement)
  | node (left right : TapTree)
deriving Repr, DecidableEq

/-- JS `a || b` on strings: the empty string is falsy. -/
def jsOr (a b : String) : String := if a.isEmpty then b else a

/-- The mutable fields of an `Inscriber` instance (including the fields it
inherits from `PSBTBuilder`, which is not under src/: `fee`, `outputAmount`,
`outputs`, `inputs`, `address`, `changeAddress`, `xKey`; modelled from the
spec, the assembler base class manages inputs, outputs, fee and totals). -/
structure InscriberState where
  address : String
  changeAddress : String
  destinationAddress : String
  xKey : String
  mediaType : StrOrArr
  mediaContent : StrOrArr
  meta : Option String := none
  encodeMetadata : Bool := false
  taptreeVersion : String := "1"
  postage : Int
  fee : Int := 0
  outputAmount : Int := 0
  outputs : List Output := []
  inputs : List UTXOLimited := []
  ready : Bool := false
  commitAddress : Option String := none
  payment : Option Payment := none
  suitableUnspent : Option UTXOLimited := none
  recovery : Bool := false
  recoverAmount : Int := 0
  previewMode : Bool := false
  witnessScripts : Option WitnessScripts := none
  taprootTree : Option TapTree := none
deriving Repr, DecidableEq

/-- The external collaborators of the Inscriber, per spec section 6:
the fee estimator (`calcFee`, for `PSBTBuilder.calculateNetworkFee`), the
datasource (`getSpendables`, for `datasource.getUnspents(..).spendableUTXOs`),
the UTXO selector (`retrieveSelectedUTXOs`, a `PSBTBuilder` method not under
src/, modelled from the spec as a query for spendable outputs of at least the
requested amount at an address), Taproot address derivation (`createTxP2tr`),
the metadata encoder (`encodeObject`), and the dust constant
`minimumAmountInSats` (`MINIMUM_AMOUNT_IN_SATS`, whose numeric value is not
under src/). -/
structure InscriberEnv where
  calcFee : InscriberState → Int
  getSpendables : String → List UTXOLimited
  retrieveSelectedUTXOs : String → Int → List UTXOLimited
  createTxP2tr : Payment
  encodeObject : String → String
  minimumAmountInSats : Int

/-- Modelled from the spec: `getDummyP2TRInput` is not under src/; it is the
fixed-shape placeholder input substituted during a dry run (spec section 4.3);
none of its field values flow into any modelled observable. -/
def getDummyP2TRInput : UTXOLimited := { txid := "", n := 0, sats := 0 }

/-- Options of `isReady` / `fetchAndSelectSuitableUnspent`. -/
structure SkipStrictSatsCheckOptions where
  skipStrictSatsCheck : Bool := false
  customAmount : Option Int := none
deriving Repr, DecidableEq

/-- The quote triple returned by `Inscriber.recover`. -/
structure RecoverQuote where
  recoverAddress : String
  recoverAmount : Int
  recoverFee : Int
deriving Repr, DecidableEq

namespace Inscriber

/-- `Inscriber.getMetadata`: encode the metadata object only when
`encodeMetadata` is set (the encoder itself is external). -/
def getMetadata (env : InscriberEnv) (s : InscriberState) : Option String :=
  match s.meta with
  | some m => if s.encodeMetadata then some (env.encodeObject m) else some m
  | none => none

/-- `Inscriber.buildWitness`: the three `buildWitnessScript` calls (with
metadata, without metadata, recovery). -/
def buildWitness (env : InscriberEnv) (s : InscriberState) : Except SdkError WitnessScripts :=
  match buildWitnessScript ⟨s.xKey, s.mediaContent, s.mediaType, getMetadata env s, false⟩ with
  | .error e => .error e
  | .ok inscriptionScript =>
    match buildWitnessScript ⟨s.xKey, s.mediaContent, s.mediaType, none, false⟩ with
    | .error e => .error e
    | .ok inscriptionOnlyScript =>
      match buildWitnessScript ⟨s.xKey, s.mediaContent, s.mediaType, getMetadata env s, true⟩ with
      | .error e => .error e
      | .ok recoveryScript => .ok ⟨inscriptionScript, inscriptionOnlyScript, recoveryScript⟩

/-- `Inscriber.buildTaprootTree`: build the witness scripts, then arrange
them per taptree version ("2": recovery and inscription paired under one
branch plus a standalone inscription-only leaf; "1"/default: inscription and
recovery leaves). -/
def buildTaprootTree (env : InscriberEnv) (s : InscriberState) : Except SdkError InscriberState :=
  match buildWitness env s with
  | .error e => .error e
  | .ok w =>
    .ok { s with
          witnessScripts := some w,
          taprootTree := some (match s.taptreeVersion with
            | "2" => .node (.node (.leaf w.recovery) (.leaf w.inscription)) (.leaf w.inscriptionOnly)
            | _ => .node (.leaf w.inscription) (.leaf w.recovery)) }

/-- Modelled from the spec: `PSBTBuilder.prepare` is not under src/; with
`autoAdjustment: false` (as the Inscriber constructor passes) the assembler
maintains the output total without altering outputs or fee. -/
def prepare (s : InscriberState) : InscriberState :=
  { s with outputAmount := (s.outputs.map Output.value).sum }

/-- `Inscriber.build`: requires a selected funding UTXO and a payment,
records the single Taproot input, then prepends the destination output
(normal mode) or replaces the outputs with the single recovery output of
value `fundingAmount - fee` (recovery mode), and runs the assembler's
prepare step. -/
def build (s : InscriberState) : Except SdkError InscriberState :=
  match s.suitableUnspent, s.payment with
  | some u, some _ =>
    let s1 := { s with inputs := [u] }
    let s2 :=
      if !s1.recovery then
        { s1 with outputs :=
            { address := jsOr s1.destinationAddress s1.address, value := s1.postage }
              :: s1.outputs }
      else s1
    let s3 :=
      if s2.recovery then
        { s2 with
          recoverAmount := u.sats - s2.fee,
          outputs := [{ address := jsOr s2.changeAddress s2.address, value := u.sats - s2.fee }] }
      else s2
    .ok (prepare s3)
  | _, _ => .error .txNotReady

/-- `Inscriber.preview({ activate: true })`: enter preview mode, select the
real funded UTXO (recovery) or the dummy placeholder (normal), fail when
recovery finds no UTXO, then mark ready and build. -/
def previewActivate (env : InscriberEnv) (s : InscriberState) : Except SdkError InscriberState :=
  let s1 := { s with previewMode := true }
  match (if s1.recovery then (env.getSpendables (s1.commitAddress.getD "")).head?
         else some getDummyP2TRInput) with
  | none => .error .noUtxoToRecover
  | some u => build { s1 with suitableUnspent := some u, ready := true }

/-- `Inscriber.preview({ activate: false })`: clear the selected UTXO and
ready flag, shift the first output off, leave preview mode.  (The source also
re-initialises its underlying PSBT object, which has no counterpart in this
state model.) -/
def previewDeactivate (s : InscriberState) : InscriberState :=
  { s with suitableUnspent := none, ready := false, outputs := s.outputs.tail,
           previewMode := false }

/-- `Inscriber.calculateNetworkFeeUsingPreviewMode`: preview-build, set the
fee from the external estimator, then deactivate the preview. -/
def calculateNetworkFeeUsingPreviewMode (env : InscriberEnv) (s : InscriberState) :
    Except SdkError InscriberState :=
  match previewActivate env s with
  | .error e => .error e
  | .ok s1 => .ok (previewDeactivate { s1 with fee := env.calcFee s1 })

/-- `Inscriber.recover`: set the recovery flag, rebuild the tree, derive the
payment for the recovery redeem script, record the commit address, re-run the
dry-run fee quote, and report the quote triple (subtracting the fee from the
recover amount recorded during the dry run, whose own fee was the previous
fee value). -/
def recover (env : InscriberEnv) (s : InscriberState) :
    Except SdkError (InscriberState × RecoverQuote) :=
  match buildTaprootTree env { s with recovery := true } with
  | .error e => .error e
  | .ok s1 =>
    let payment := env.createTxP2tr
    let s2 := { s1 with payment := some payment, commitAddress := some payment.address }
    match calculateNetworkFeeUsingPreviewMode env s2 with
    | .error e => .error e
    | .ok s3 =>
      .ok (s3, { recoverAddress := jsOr s3.changeAddress s3.address,
                 recoverAmount := s3.recoverAmount - s3.fee,
                 recoverFee := s3.fee })

/-- `Inscriber.isBuilt`: throws unless a commit address exists and the fee is
truthy (a zero fee is falsy in JS and also fails this check). -/
def isBuiltCheck (s : InscriberState) : Except SdkError Unit :=
  if s.commitAddress.isNone || s.fee == 0 then .error .invalidTx else .ok ()

/-- The `const amount = ...` computation of `fetchAndSelectSuitableUnspent`:
`outputAmount - fee` in recovery mode, the caller-supplied override when
strict checking is skipped and the override is truthy, otherwise
`outputAmount + fee`. -/
def requiredAmount (s : InscriberState) (opts : SkipStrictSatsCheckOptions) : Int :=
  if s.recovery then s.outputAmount - s.fee
  else if opts.skipStrictSatsCheck &&
      (match opts.customAmount with
       | some c => !(c == 0)
       | none => false) then
    opts.customAmount.getD 0
  else s.outputAmount + s.fee

/-- `Inscriber.fetchAndSelectSuitableUnspent`: preview-mode guard, built
guard, dust check against the minimum spendable amount, UTXO retrieval, then
record the first retrieved UTXO and mark ready. -/
def fetchAndSelectSuitableUnspent (env : InscriberEnv) (opts : SkipStrictSatsCheckOptions)
    (s : InscriberState) : Except SdkError (InscriberState × UTXOLimited) :=
  if s.previewMode then .error .previewModeRestricted
  else
    match isBuiltCheck s with
    | .error e => .error e
    | .ok _ =>
      let amount := requiredAmount s opts
      if amount < env.minimumAmountInSats then .error .belowDustLimit
      else
        match (env.retrieveSelectedUTXOs (s.commitAddress.getD "") amount).head? with
        | none => .error .noSelectedUtxos
        | some u => .ok ({ s with suitableUnspent := some u, ready := true }, u)

/-- `Inscriber.isReady`: built guard outside the try block, then attempt
`fetchAndSelectSuitableUnspent`, swallowing *any* error it throws into the
boolean result `false`. -/
def isReady (env : InscriberEnv) (opts : SkipStrictSatsCheckOptions) (s : InscriberState) :
    Except SdkError (InscriberState × Bool) :=
  match isBuiltCheck s with
  | .error e => .error e
  | .ok _ =>
    if !s.ready then
      match fetchAndSelectSuitableUnspent env opts s with
      | .error _ => .ok (s, false)
      | .ok (s1, _) => .ok (s1, s1.ready)
    else .ok (s, s.ready)

end Inscriber

/-- C2 as amended: when the computed required funding amount is below the
network minimum spendable amount, `fetchAndSelectSuitableUnspent` fails with
the below-dust error (no rounding), while `isReady` *catches* that error and
returns the boolean `false` instead of failing. -/
theorem dust_enforcement (env : InscriberEnv) (opts : SkipStrictSatsCheckOptions)
    (s : InscriberState)
    (hpm : s.previewMode = false) (hca : s.commitAddress.isSome = true) (hfee : s.fee ≠ 0)
    (hready : s.ready = false)
    (hamt : Inscriber.requiredAmount s opts < env.minimumAmountInSats) :
    Inscriber.fetchAndSelectSuitableUnspent env opts s = .error .belowDustLimit ∧
    Inscriber.isReady env opts s = .ok (s, false) := by
  obtain ⟨a, ha⟩ := Option.isSome_iff_exists.mp hca
  have hbuilt : Inscriber.isBuiltCheck s = .ok () := by
    simp [Inscriber.isBuiltCheck, ha, hfee]
  have hfetch : Inscriber.fetchAndSelectSuitableUnspent env opts s =
      .error .belowDustLimit := by
    unfold Inscriber.fetchAndSelectSuitableUnspent
    rw [if_neg (by simp [hpm])]
    simp only [hbuilt]
    rw [if_pos hamt]
  refine ⟨hfetch, ?_⟩
  unfold Inscriber.isReady
  simp only [hbuilt, hready, Bool.not_false, if_true, hfetch]

/-- Environment for the dust-enforcement witness and counterexample. -/
def dustEnv : InscriberEnv :=
  { calcFee := fun _ => 0, getSpendables := fun _ => [],
    retrieveSelectedUTXOs := fun _ _ => [], createTxP2tr := ⟨"tb1ptest"⟩,
    encodeObject := fun j => j, minimumAmountInSats := 600 }

/-- A state whose required amount (0 + 10) is far below the 600-sat dust
limit. -/
def dustState : InscriberState :=
  { address := "addr", changeAddress := "chg", destinationAddress := "dst",
    xKey := "02", mediaType := .str "image/png", mediaContent := .str "AB",
    postage := 546, fee := 10, commitAddress := some "commitaddr" }

/-- Witness for `dust_enforcement`. -/
theorem dust_enforcement_witness :
    Inscriber.fetchAndSelectSuitableUnspent dustEnv {} dustState = .error .belowDustLimit ∧
    Inscriber.isReady dustEnv {} dustState = .ok (dustState, false) :=
  dust_enforcement dustEnv {} dustState rfl rfl (by decide) rfl (by decide)

/-- C2 counterexample: at a below-dust required amount, `isReady` does *not*
fail with the below-dust error — it returns the boolean `false` (the claim
says both entry points fail with `BelowDustLimit` rather than returning a
boolean). -/
theorem dust_claim_counterexample :
    Inscriber.requiredAmount dustState {} < dustEnv.minimumAmountInSats ∧
    Inscriber.isReady dustEnv {} dustState = .ok (dustState, false) := by
  exact ⟨by decide, rfl⟩

/-- Inversion of a successful `fetchAndSelectSuitableUnspent`: the returned
state is the input state with the first retrieved UTXO selected and the ready
flag set. -/
theorem fetch_ok_fields (env : InscriberEnv) (opts : SkipStrictSatsCheckOptions)
    (s s2 : InscriberState) (u2 : UTXOLimited)
    (hf : Inscriber.fetchAndSelectSuitableUnspent env opts s = .ok (s2, u2)) :
    s2 = { s with suitableUnspent := some u2, ready := true } ∧
    (env.retrieveSelectedUTXOs (s.commitAddress.getD "")
        (Inscriber.requiredAmount s opts)).head? = some u2 := by
  unfold Inscriber.fetchAndSelectSuitableUnspent at hf
  dsimp only [] at hf
  split at hf
  · exact absurd hf (by simp)
  · split at hf
    · exact absurd hf (by simp)
    · split at hf
      · exact absurd hf (by simp)
      · split at hf
        · exact absurd hf (by simp)
        · rw [Except.ok.injEq, Prod.mk.injEq] at hf
          obtain ⟨hs2, hu2⟩ := hf
          subst hu2
          refine ⟨hs2.symm, ?_⟩
          rename_i heq
          rw [heq]

/-- Inversion of a successful `build` in recovery mode: the built state's
outputs are exactly one output of value `fundingAmount - fee` to the change
(or funding) address, and the fee is unchanged. -/
theorem build_ok_recovery (s s3 : InscriberState) (u : UTXOLimited)
    (hrec : s.recovery = true) (hsu : s.suitableUnspent = some u)
    (hb : Inscriber.build s = .ok s3) :
    s3.outputs = [{ address := jsOr s.changeAddress s.address, value := u.sats - s.fee }] ∧
    s3.fee = s.fee := by
  unfold Inscriber.build at hb
  rw [hsu] at hb
  cases hp : s.payment with
  | none => rw [hp] at hb; exact absurd hb (by simp)
  | some p =>
    rw [hp] at hb
    simp only [hrec, Bool.not_true, Bool.false_eq_true, if_false, if_true] at hb
    rw [Except.ok.injEq] at hb
    subst hb
    exact ⟨rfl, rfl⟩

/-- C1: for an Inscriber used for recovery from a fresh state (fee still 0,
as the source comment "the first time, fee is 0" assumes), funded by a UTXO
of value `V` with recovery fee `F = recoverFee`, `recover()` reports
`recoverAmount = V - F`, and the subsequent `build()` (after the funding UTXO
is selected again) emits exactly one output, to the change (or funding)
address, of value the funding amount minus the fee. -/
theorem recovery_amount_and_single_output (env : InscriberEnv) (s0 : InscriberState)
    (u : UTXOLimited) (V : Int) (w : WitnessScripts)
    (hfee0 : s0.fee = 0)
    (hbw : Inscriber.buildWitness env s0 = .ok w)
    (henv : ∀ a, env.getSpendables a = [u])
    (hretr : ∀ a amt, env.retrieveSelectedUTXOs a amt = [u])
    (hV : u.sats = V) :
    ∀ s1 q, Inscriber.recover env s0 = .ok (s1, q) →
      q.recoverAmount = V - q.recoverFee ∧
      q.recoverFee = s1.fee ∧
      q.recoverAddress = jsOr s1.changeAddress s1.address ∧
      ∀ opts s2 u2,
        Inscriber.fetchAndSelectSuitableUnspent env opts s1 = .ok (s2, u2) →
        ∀ s3, Inscriber.build s2 = .ok s3 →
          s3.outputs = [{ address := jsOr s1.changeAddress s1.address,
                          value := V - q.recoverFee }] := by
  intro s1 q h
  have hbw' : Inscriber.buildWitness env { s0 with recovery := true } = .ok w := hbw
  simp only [Inscriber.recover, Inscriber.buildTaprootTree, hbw'] at h
  simp only [Inscriber.calculateNetworkFeeUsingPreviewMode, Inscriber.previewActivate,
    Option.getD_some, henv, List.head?_cons, if_true, ite_true] at h
  simp only [Inscriber.build, Bool.not_true, Bool.false_eq_true, if_false, if_true,
    ite_true, ite_false] at h
  simp only [Inscriber.prepare, Inscriber.previewDeactivate, List.map_cons, List.map_nil,
    List.sum_cons, List.sum_nil, List.tail_cons, add_zero] at h
  simp only [hfee0, sub_zero] at h
  rw [Except.ok.injEq, Prod.mk.injEq] at h
  obtain ⟨hs1, hq⟩ := h
  subst hs1
  subst hq
  refine ⟨by simp [hV], rfl, rfl, ?_⟩
  intro opts s2 u2 hf s3 hb
  obtain ⟨hs2, hhead⟩ := fetch_ok_fields env opts _ s2 u2 hf
  rw [hretr, List.head?_cons, Option.some.injEq] at hhead
  subst hhead
  subst hs2
  obtain ⟨houts, _⟩ := build_ok_recovery _ s3 u rfl rfl hb
  rw [houts]
  simp [hV]

/-- Concrete funding UTXO of value 1000 for the recovery witness. -/
def recvU : UTXOLimited := { txid := "ff00", n := 0, sats := 1000 }

/-- Concrete environment for the recovery witness: constant fee 100. -/
def recvEnv : InscriberEnv :=
  { calcFee := fun _ => 100, getSpendables := fun _ => [recvU],
    retrieveSelectedUTXOs := fun _ _ => [recvU], createTxP2tr := ⟨"tb1precover"⟩,
    encodeObject := fun j => j, minimumAmountInSats := 600 }

/-- Concrete fresh Inscriber state for the recovery witness. -/
def recvState : InscriberState :=
  { address := "addr", changeAddress := "chg", destinationAddress := "dst",
    xKey := "02", mediaType := .str "text/plain", mediaContent := .str "a",
    postage := 546 }

/-- The witness scripts the recovery witness run produces. -/
def recvW : WitnessScripts :=
  match Inscriber.buildWitness recvEnv recvState with
  | .ok w => w
  | .error _ => ⟨[], [], []⟩

/-- The recovery witness run of `recover`. -/
def recvRun : Except SdkError (InscriberState × RecoverQuote) :=
  Inscriber.recover recvEnv recvState

/-- State after `recover` in the witness run. -/
def recvS1 : InscriberState :=
  match recvRun with
  | .ok p => p.1
  | .error _ => recvState

/-- Quote returned by `recover` in the witness run. -/
def recvQ : RecoverQuote :=
  match recvRun with
  | .ok p => p.2
  | .error _ => ⟨"", 0, 0⟩

/-- The witness run of `fetchAndSelectSuitableUnspent` after `recover`. -/
def recvFetch : Except SdkError (InscriberState × UTXOLimited) :=
  Inscriber.fetchAndSelectSuitableUnspent recvEnv {} recvS1

/-- State after the fetch in the witness run. -/
def recvS2 : InscriberState :=
  match recvFetch with
  | .ok p => p.1
  | .error _ => recvS1

/-- UTXO selected by the fetch in the witness run. -/
def recvU2 : UTXOLimited :=
  match recvFetch with
  | .ok p => p.2
  | .error _ => recvU

/-- State after the subsequent `build` in the witness run. -/
def recvS3 : InscriberState :=
  match Inscriber.build recvS2 with
  | .ok s => s
  | .error _ => recvS2

/-- Witness for `recovery_amount_and_single_output`: funded with 1000 sats at
fee 100, the quote reports 900 and the built transaction has the single
900-sat change output. -/
theorem recovery_amount_witness :
    recvQ.recoverAmount = 1000 - recvQ.recoverFee ∧
    recvS3.outputs = [{ address := jsOr recvS1.changeAddress recvS1.address,
                        value := 1000 - recvQ.recoverFee }] := by
  have h := recovery_amount_and_single_output recvEnv recvState recvU 1000 recvW
    rfl rfl (fun _ => rfl) (fun _ _ => rfl) rfl recvS1 recvQ (by rfl)
  exact ⟨h.1, h.2.2.2 {} recvS2 recvU2 (by rfl) recvS3 (by rfl)⟩

/-! ### The generic PSBT assembler createPsbt / processInput (claims C7, C10) -/

/-- The `scriptPubKey` record of a fetched UTXO. -/
structure ScriptPubKey where
  address : String
  type : String
  hex : String
deriving Repr, DecidableEq

/-- A fetched UTXO as `createPsbt` consumes it. -/
structure UTXO where
  txid : String
  n : Nat
  sats : Int
  scriptPubKey : ScriptPubKey
deriving Repr, DecidableEq

/-- One requested output of `createPsbt`. -/
structure CardinalOutput where
  address : String
  cardinals : Int
deriving Repr, DecidableEq

/-- The tagged input descriptor `processInput` emits, one variant per
supported script type, each carrying the fields its signing path needs. -/
inductive InputType
  | legacy (hash : String) (index : Nat) (nonWitnessUtxo : Bytes)
  | segwit (hash : String) (index : Nat) (script : Bytes) (value : Int)
  | taproot (hash : String) (index : Nat) (tapInternalKey : Bytes) (script : Bytes) (value : Int)
  | nestedSegwit (hash : String) (index : Nat) (redeemScript : Bytes) (script : Bytes) (value : Int)
deriving Repr, DecidableEq

/-- The previous-transaction id an input descriptor spends. -/
def InputType.hash : InputType → String
  | .legacy h _ _ => h
  | .segwit h _ _ _ => h
  | .taproot h _ _ _ _ => h
  | .nestedSegwit h _ _ _ _ => h

/-- The previous-output index an input descriptor spends. -/
def InputType.index : InputType → Nat
  | .legacy _ i _ => i
  | .segwit _ i _ _ => i
  | .taproot _ i _ _ _ => i
  | .nestedSegwit _ i _ _ _ => i

/-- One input of a bitcoinjs `Psbt`, with its sequence number (bitcoinjs
defaults to the maximum, 0xffffffff). -/
structure PsbtInput where
  input : InputType
  sequence : Nat := 0xffffffff
deriving Repr, DecidableEq

/-- The bitcoinjs `Psbt` under construction, at the level `createPsbt`
observes it: its inputs (with sequence numbers) and outputs.  (Serialisation
to hex/base64 is external.) -/
structure Psbt where
  inputs : List PsbtInput := []
  outputs : List CardinalOutput := []
deriving Repr, DecidableEq

/-- bitcoinjs `Psbt.addInput`. -/
def Psbt.addInput (p : Psbt) (i : InputType) : Psbt :=
  { p with inputs := p.inputs ++ [{ input := i }] }

/-- Sets the sequence of the idx-th element. -/
def setSeqAt : List PsbtInput → Nat → Nat → List PsbtInput
  | [], _, _ => []
  | x :: rest, 0, sq => { x with sequence := sq } :: rest
  | x :: rest, i + 1, sq => x :: setSeqAt rest i sq

/-- bitcoinjs `Psbt.setInputSequence`: fails with "Input index too high" when
the index does not address an existing input. -/
def Psbt.setInputSequence (p : Psbt) (idx sq : Nat) : Except SdkError Psbt :=
  if p.inputs.length ≤ idx then .error .inputIndexTooHigh
  else .ok { p with inputs := setSeqAt p.inputs idx sq }

/-- The result of `OrditApi.fetchUnspentUTXOs`. -/
structure UnspentsResult where
  spendableUTXOs : List UTXO
  unspendableUTXOs : List UTXO
  totalUTXOs : Nat
deriving Repr, DecidableEq

/-- External collaborators of `createPsbt` / `processInput`: the UTXO source
(`fetchUnspentUTXOs`, keyed by address and by the "all"/"spendable" type
string), the raw-transaction source for legacy inputs (`fetchTxRaw`), the
bip32 x-only key derivation (`xOnlyPubKey`), the P2SH-wrapped-segwit redeem
script derivation (`p2shRedeemOutput`), the fee estimator (`calcPsbtFee`,
for `FeeEstimator.calculateNetworkFee` at the configured fee rate), and the
dust constant `minimumAmountInSats` (`MINIMUM_AMOUNT_IN_SATS`, whose numeric
value is not under src/). -/
structure PsbtEnv where
  fetchUnspentUTXOs : String → String → UnspentsResult
  fetchTxRaw : String → Option Bytes
  xOnlyPubKey : String → Bytes
  p2shRedeemOutput : String → Option Bytes
  calcPsbtFee : Psbt → Int
  minimumAmountInSats : Int

/-- `generateTaprootInput` from witness.ts: derives the x-only key (external
bip32) and requires the scriptPubKey hex. -/
def generateTaprootInput (env : PsbtEnv) (utxo : UTXO) (pubKey : String) :
    Except SdkError InputType :=
  if utxo.scriptPubKey.hex.isEmpty then .error .unableToProcessInput
  else .ok (.taproot utxo.txid utxo.n (env.xOnlyPubKey pubKey)
    (hexDecode utxo.scriptPubKey.hex) utxo.sats)

/-- `generateSegwitInput` from witness.ts. -/
def generateSegwitInput (utxo : UTXO) : Except SdkError InputType :=
  if utxo.scriptPubKey.hex.isEmpty then .error .unableToProcessInput
  else .ok (.segwit utxo.txid utxo.n (hexDecode utxo.scriptPubKey.hex) utxo.sats)

/-- `generateNestedSegwitInput` from witness.ts: requires the externally
derived P2SH redeem script. -/
def generateNestedSegwitInput (env : PsbtEnv) (utxo : UTXO) (pubKey : String) :
    Except SdkError InputType :=
  match env.p2shRedeemOutput pubKey with
  | none => .error .unableToProcessInput
  | some redeemOut =>
    .ok (.nestedSegwit utxo.txid utxo.n redeemOut (hexDecode utxo.scriptPubKey.hex) utxo.sats)

/-- `generateLegacyInput` from witness.ts: requires the externally fetched
raw funding transaction. -/
def generateLegacyInput (env : PsbtEnv) (utxo : UTXO) : Except SdkError InputType :=
  match env.fetchTxRaw utxo.txid with
  | none => .error .unableToProcessInput
  | some raw => .ok (.legacy utxo.txid utxo.n raw)

/-- `processInput` from witness.ts: classify the UTXO by its scriptPubKey
type and emit the matching tagged input descriptor; unrecognized types fail. -/
def processInput (env : PsbtEnv) (utxo : UTXO) (pubKey : String) :
    Except SdkError InputType :=
  match utxo.scriptPubKey.type with
  | "witness_v1_taproot" => generateTaprootInput env utxo pubKey
  | "witness_v0_scripthash" => generateSegwitInput utxo
  | "witness_v0_keyhash" => generateSegwitInput utxo
  | "scripthash" => generateNestedSegwitInput env utxo pubKey
  | "pubkeyhash" => generateLegacyInput env utxo
  | _ => .error .invalidScriptPubType

/-- The input-adding loop of `createPsbt` (witness.ts lines 537 to 547) over
the enumerated spendable UTXOs: skip UTXOs whose scriptPubKey address is not
the funding address, process and add the rest, and, when replace-by-fee is
requested, set the sequence of the input at the *enumeration* index to
0xfffffffd.  (The taproot `payload.witnesses` push is dead code here:
`processInput` is called without a witnesses argument.) -/
def addInputsLoop (env : PsbtEnv) (pubKey address : String) (enableRBF : Bool) :
    Psbt → List (Nat × UTXO) → Except SdkError Psbt
  | psbt, [] => .ok psbt
  | psbt, (index, utxo) :: rest =>
    if utxo.scriptPubKey.address ≠ address then
      addInputsLoop env pubKey address enableRBF psbt rest
    else
      match processInput env utxo pubKey with
      | .error e => .error e
      | .ok payload =>
        let psbt1 := psbt.addInput payload
        match (if enableRBF then psbt1.setInputSequence index 0xfffffffd else .ok psbt1) with
        | .error e => .error e
        | .ok psbt2 => addInputsLoop env pubKey address enableRBF psbt2 rest

/-- `CreatePsbtOptions` from witness.ts.  `satsPerByte` is consumed only by
the external fee estimator, which the environment models as a function of the
assembled PSBT. -/
structure CreatePsbtOptions where
  satsPerByte : Int
  address : String
  outputs : List CardinalOutput
  enableRBF : Bool := true
  pubKey : String
  network : String
  safeMode : String := "on"
deriving Repr, DecidableEq

/-- `createPsbt` from witness.ts: fetch UTXOs (all of them under relaxed
safe mode, else only spendable), fail without UTXOs, sum the input sats over
spendable plus (under safeMode off) unspendable UTXOs, add inputs from the
spendable UTXOs at the funding address, compute the fee externally, fail on
insufficient balance, append a change output back to the funding address if
the remainder exceeds the dust threshold, then add the outputs.  (The final
hex/base64 serialisation is external; the assembled PSBT is returned.) -/
def createPsbt (env : PsbtEnv) (o : CreatePsbtOptions) : Except SdkError Psbt :=
  if o.outputs.isEmpty then .error .invalidRequest
  else
    let r := env.fetchUnspentUTXOs o.address (if o.safeMode == "off" then "all" else "spendable")
    if r.totalUTXOs == 0 then .error .noSpendableUtxos
    else
      let inputSats := ((r.spendableUTXOs
        ++ (if o.safeMode == "off" then r.unspendableUTXOs else [])).map UTXO.sats).sum
      let outputSats := (o.outputs.map CardinalOutput.cardinals).sum
      match addInputsLoop env o.pubKey o.address o.enableRBF {} r.spendableUTXOs.enum with
      | .error e => .error e
      | .ok psbt =>
        let fee := env.calcPsbtFee psbt
        let remainingBalance := inputSats - outputSats - fee
        if remainingBalance < 0 then .error .insufficientBalance
        else
          let outs := if remainingBalance > env.minimumAmountInSats then
              o.outputs ++ [{ address := o.address, cardinals := remainingBalance }]
            else o.outputs
          .ok { psbt with outputs := outs }

theorem processInput_outpoint (env : PsbtEnv) (utxo : UTXO) (pk : String) (t : InputType)
    (h : processInput env utxo pk = .ok t) : t.hash = utxo.txid ∧ t.index = utxo.n := by
  unfold processInput at h
  split at h
  · unfold generateTaprootInput at h
    split at h
    · exact absurd h (by simp)
    · rw [Except.ok.injEq] at h
      subst h
      exact ⟨rfl, rfl⟩
  · unfold generateSegwitInput at h
    split at h
    · exact absurd h (by simp)
    · rw [Except.ok.injEq] at h
      subst h
      exact ⟨rfl, rfl⟩
  · unfold generateSegwitInput at h
    split at h
    · exact absurd h (by simp)
    · rw [Except.ok.injEq] at h
      subst h
      exact ⟨rfl, rfl⟩
  · unfold generateNestedSegwitInput at h
    split at h
    · exact absurd h (by simp)
    · rw [Except.ok.injEq] at h
      subst h
      exact ⟨rfl, rfl⟩
  · unfold generateLegacyInput at h
    split at h
    · exact absurd h (by simp)
    · rw [Except.ok.injEq] at h
      subst h
      exact ⟨rfl, rfl⟩
  · exact absurd h (by simp)

theorem setSeqAt_append_own (l : List PsbtInput) (x : PsbtInput) (sq : Nat) :
    setSeqAt (l ++ [x]) l.length sq = l ++ [{ x with sequence := sq }] := by
  induction l with
  | nil => rfl
  | cons y rest ih => simp [setSeqAt, ih]

theorem setSeqAt_map_input (l : List PsbtInput) (i sq : Nat) :
    (setSeqAt l i sq).map PsbtInput.input = l.map PsbtInput.input := by
  induction l generalizing i with
  | nil => rfl
  | cons x rest ih =>
    cases i with
    | zero => rfl
    | succ j => simp [setSeqAt, ih]

theorem setInputSequence_inv (p : Psbt) (i sq : Nat) (p2 : Psbt)
    (h : p.setInputSequence i sq = .ok p2) :
    p2.inputs.map PsbtInput.input = p.inputs.map PsbtInput.input ∧ p2.outputs = p.outputs := by
  unfold Psbt.setInputSequence at h
  split at h
  · exact absurd h (by simp)
  · rw [Except.ok.injEq] at h
    subst h
    exact ⟨setSeqAt_map_input _ _ _, rfl⟩

/-- Invariant of the input-adding loop: outputs are untouched, and every
input descriptor either was already present or spends a listed UTXO at the
funding address (with the descriptor's outpoint taken from that UTXO). -/
theorem addInputsLoop_inv (env : PsbtEnv) (pk a : String) (rbf : Bool) :
    ∀ (l : List (Nat × UTXO)) (p0 p : Psbt),
      addInputsLoop env pk a rbf p0 l = .ok p →
      p.outputs = p0.outputs ∧
      ∀ t ∈ p.inputs.map PsbtInput.input,
        t ∈ p0.inputs.map PsbtInput.input ∨
        ∃ pr ∈ l, pr.2.scriptPubKey.address = a ∧ t.hash = pr.2.txid ∧ t.index = pr.2.n := by
  intro l
  induction l with
  | nil =>
    intro p0 p h
    simp only [addInputsLoop] at h
    rw [Except.ok.injEq] at h
    subst h
    exact ⟨rfl, fun t ht => Or.inl ht⟩
  | cons pr rest ih =>
    intro p0 p h
    obtain ⟨i, utxo⟩ := pr
    simp only [addInputsLoop] at h
    split at h
    · obtain ⟨ho, hmem⟩ := ih p0 p h
      refine ⟨ho, fun t ht => ?_⟩
      rcases hmem t ht with h1 | ⟨pr2, hpr2, hrest⟩
      · exact Or.inl h1
      · exact Or.inr ⟨pr2, List.mem_cons_of_mem _ hpr2, hrest⟩
    · rename_i hcond
      have haddr : utxo.scriptPubKey.address = a := not_ne_iff.mp hcond
      split at h
      · exact absurd h (by simp)
      · rename_i payload heq
        split at h
        · exact absurd h (by simp)
        · rename_i psbt2 heq2
          have hmap2 : psbt2.inputs.map PsbtInput.input
                = p0.inputs.map PsbtInput.input ++ [payload] ∧
              psbt2.outputs = p0.outputs := by
            cases rbf with
            | false =>
              rw [if_neg (by simp)] at heq2
              rw [Except.ok.injEq] at heq2
              subst heq2
              exact ⟨by simp [Psbt.addInput], rfl⟩
            | true =>
              rw [if_pos rfl] at heq2
              obtain ⟨hm, hout⟩ := setInputSequence_inv _ _ _ _ heq2
              refine ⟨?_, hout⟩
              rw [hm]
              simp [Psbt.addInput]
          obtain ⟨ho, hmem⟩ := ih psbt2 p h
          refine ⟨ho.trans hmap2.2, fun t ht => ?_⟩
          rcases hmem t ht with h1 | ⟨pr2, hpr2, hrest⟩
          · rw [hmap2.1] at h1
            rcases List.mem_append.mp h1 with h2 | h2
            · exact Or.inl h2
            · have ht2 : t = payload := List.mem_singleton.mp h2
              subst ht2
              obtain ⟨hh, hi⟩ := processInput_outpoint env utxo pk t heq
              exact Or.inr ⟨(i, utxo), List.mem_cons_self _ _, haddr, hh, hi⟩
          · exact Or.inr ⟨pr2, List.mem_cons_of_mem _ hpr2, hrest⟩

/-- Under replace-by-fee, with every UTXO at the funding address and the
enumeration aligned with the PSBT's input count, every input ends up with
sequence 0xfffffffd. -/
theorem addInputsLoop_rbf_seq (env : PsbtEnv) (pk a : String) :
    ∀ (us : List UTXO) (k : Nat) (p0 p : Psbt),
      (∀ u ∈ us, u.scriptPubKey.address = a) →
      p0.inputs.length = k →
      (∀ pi ∈ p0.inputs, pi.sequence = 0xfffffffd) →
      addInputsLoop env pk a true p0 (List.enumFrom k us) = .ok p →
      ∀ pi ∈ p.inputs, pi.sequence = 0xfffffffd := by
  intro us
  induction us with
  | nil =>
    intro k p0 p _ _ hseq h
    simp only [List.enumFrom, addInputsLoop] at h
    rw [Except.ok.injEq] at h
    subst h
    exact hseq
  | cons u us ih =>
    intro k p0 p hall hlen hseq h
    rw [List.enumFrom_cons] at h
    simp only [addInputsLoop] at h
    rw [if_neg (not_ne_iff.mpr (hall u (List.mem_cons_self _ _)))] at h
    split at h
    · exact absurd h (by simp)
    · rename_i payload heq
      have hset : (Psbt.addInput p0 payload).setInputSequence k 0xfffffffd =
          .ok ⟨p0.inputs ++ [{ input := payload, sequence := 0xfffffffd }], p0.outputs⟩ := by
        unfold Psbt.setInputSequence Psbt.addInput
        rw [if_neg (by simp [hlen])]
        rw [← hlen, setSeqAt_append_own]
      rw [if_true, hset] at h
      refine ih (k + 1) _ p (fun v hv => hall v (List.mem_cons_of_mem _ hv)) ?_ ?_ h
      · simp [hlen]
      · intro pi hpi
        rcases List.mem_append.mp hpi with h1 | h1
        · exact hseq pi h1
        · rw [List.mem_singleton.mp h1]

/-- The unspents `createPsbt` fetches for its options ("all" under relaxed
safe mode, else "spendable"). -/
def fetchedUnspents (env : PsbtEnv) (o : CreatePsbtOptions) : UnspentsResult :=
  env.fetchUnspentUTXOs o.address (if o.safeMode == "off" then "all" else "spendable")

/-- The input-sats sum `createPsbt` uses: spendable UTXOs plus, under safeMode
"off", the unspendable ones as well. -/
def psbtInputSum (env : PsbtEnv) (o : CreatePsbtOptions) : Int :=
  (((fetchedUnspents env o).spendableUTXOs
    ++ (if o.safeMode == "off" then (fetchedUnspents env o).unspendableUTXOs else [])).map
      UTXO.sats).sum

/-- The sum of the requested output amounts. -/
def requestedOutputSum (o : CreatePsbtOptions) : Int :=
  (o.outputs.map CardinalOutput.cardinals).sum

/-- Inversion of a successful `createPsbt`: the inputs come from the adding
loop, the balance check passed, and the outputs are the requested ones plus
the conditional change output. -/
theorem createPsbt_ok_inv (env : PsbtEnv) (o : CreatePsbtOptions) (psbt : Psbt)
    (h : createPsbt env o = .ok psbt) :
    ∃ p1, addInputsLoop env o.pubKey o.address o.enableRBF {}
        (fetchedUnspents env o).spendableUTXOs.enum = .ok p1 ∧
      psbt.inputs = p1.inputs ∧
      0 ≤ psbtInputSum env o - requestedOutputSum o - env.calcPsbtFee p1 ∧
      psbt.outputs =
        (if psbtInputSum env o - requestedOutputSum o - env.calcPsbtFee p1
            > env.minimumAmountInSats
         then o.outputs ++ [{ address := o.address, cardinals := psbtInputSum env o - requestedOutputSum o - env.calcPsbtFee p1 }]
         else o.outputs) := by
  unfold createPsbt at h
  dsimp only [] at h
  have hfold : env.fetchUnspentUTXOs o.address
      (if o.safeMode == "off" then "all" else "spendable") = fetchedUnspents env o := rfl
  rw [hfold] at h
  have hsum : (((fetchedUnspents env o).spendableUTXOs
      ++ (if o.safeMode == "off" then (fetchedUnspents env o).unspendableUTXOs else [])).map
        UTXO.sats).sum = psbtInputSum env o := rfl
  rw [hsum] at h
  have hreq : (o.outputs.map CardinalOutput.cardinals).sum = requestedOutputSum o := rfl
  rw [hreq] at h
  split at h
  · exact absurd h (by simp)
  · split at h
    · exact absurd h (by simp)
    · split at h
      · exact absurd h (by simp)
      · rename_i p1 heq
        split at h
        · exact absurd h (by simp)
        · rename_i hbal
          rw [Except.ok.injEq] at h
          subst h
          exact ⟨p1, heq, rfl, not_lt.mp hbal, rfl⟩

/-- C10: every input of a PSBT returned by `createPsbt` spends a *spendable*
UTXO whose scriptPubKey address is the funding address (unspendable UTXOs and
UTXOs at other addresses are never added, even under safeMode "off"), while
the input-sum used for the insufficient-balance check and the change output
does count the unspendable amounts under safeMode "off". -/
theorem psbt_inputs_only_spendable_at_address (env : PsbtEnv) (o : CreatePsbtOptions) :
    ∀ psbt, createPsbt env o = .ok psbt →
      (∀ pi ∈ psbt.inputs, ∃ utxo ∈ (fetchedUnspents env o).spendableUTXOs,
          utxo.scriptPubKey.address = o.address ∧
          pi.input.hash = utxo.txid ∧ pi.input.index = utxo.n) ∧
      0 ≤ psbtInputSum env o - requestedOutputSum o
          - env.calcPsbtFee { inputs := psbt.inputs, outputs := [] } ∧
      psbt.outputs =
        (if psbtInputSum env o - requestedOutputSum o
            - env.calcPsbtFee { inputs := psbt.inputs, outputs := [] }
            > env.minimumAmountInSats
         then o.outputs ++ [{ address := o.address, cardinals := psbtInputSum env o - requestedOutputSum o - env.calcPsbtFee { inputs := psbt.inputs, outputs := [] } }]
         else o.outputs) := by
  intro psbt h
  obtain ⟨p1, hloop, hin, hbal, hout⟩ := createPsbt_ok_inv env o psbt h
  obtain ⟨ho1, hmem⟩ := addInputsLoop_inv env o.pubKey o.address o.enableRBF _ _ _ hloop
  have hp1 : p1 = { inputs := psbt.inputs, outputs := [] } := by
    obtain ⟨pin, pout⟩ := p1
    simp only at hin ho1
    rw [hin, ho1]
  constructor
  · intro pi hpi
    have hm := hmem pi.input (List.mem_map_of_mem PsbtInput.input (hin ▸ hpi))
    rcases hm with h1 | ⟨pr, hpr, ha, hh, hi⟩
    · simp at h1
    · exact ⟨pr.2, List.snd_mem_of_mem_enum hpr, ha, hh, hi⟩
  · rw [← hp1]
    exact ⟨hbal, hout⟩

/-- Concrete spendable taproot UTXO at the funding address for the PSBT
witnesses. -/
def utxoW : UTXO :=
  { txid := "aa", n := 0, sats := 5000,
    scriptPubKey := { address := "funder", type := "witness_v1_taproot", hex := "51" } }

/-- Concrete environment for the PSBT witnesses: one spendable UTXO,
constant fee 100. -/
def psbtEnvW : PsbtEnv :=
  { fetchUnspentUTXOs := fun _ _ =>
      { spendableUTXOs := [utxoW], unspendableUTXOs := [], totalUTXOs := 1 },
    fetchTxRaw := fun _ => none, xOnlyPubKey := fun _ => [2],
    p2shRedeemOutput := fun _ => none, calcPsbtFee := fun _ => 100,
    minimumAmountInSats := 600 }

/-- Concrete `createPsbt` options for the PSBT witnesses. -/
def psbtOptsW : CreatePsbtOptions :=
  { satsPerByte := 1, address := "funder",
    outputs := [{ address := "dest", cardinals := 1000 }],
    pubKey := "02", network := "testnet" }

/-- The PSBT the witness run returns. -/
def psbtW : Psbt :=
  match createPsbt psbtEnvW psbtOptsW with
  | .ok p => p
  | .error _ => {}

/-- Witness for `psbt_inputs_only_spendable_at_address`: the 5000-sat input
leaves a 3900-sat change output after the 1000-sat output and 100-sat fee. -/
theorem psbt_inputs_witness :
    createPsbt psbtEnvW psbtOptsW = .ok psbtW ∧
    psbtW.outputs = psbtOptsW.outputs ++ [{ address := "funder", cardinals := 3900 }] := by
  refine ⟨rfl, ?_⟩
  have h := (psbt_inputs_only_spendable_at_address psbtEnvW psbtOptsW psbtW rfl).2.2
  rw [h]
  rfl

/-- C7 counterexample: with replace-by-fee requested the sequence actually
set is 0xfffffffd, which is *two* below the maximum 0xffffffff, not one
below as claimed. -/
theorem rbf_one_below_max_counterexample :
    createPsbt psbtEnvW psbtOptsW = .ok psbtW ∧
    psbtW.inputs.map PsbtInput.sequence = [0xfffffffd] ∧
    (0xfffffffd : Nat) ≠ 0xffffffff - 1 :=
  ⟨rfl, rfl, by decide⟩

/-- C7 as amended: with replace-by-fee requested, and every fetched spendable
UTXO paying the funding address (so that the loop's enumeration index always
addresses the input just added), every added input's sequence number is set
to 0xfffffffd, the standard opt-in RBF value two below the maximum. -/
theorem rbf_sequence_two_below_max (env : PsbtEnv) (o : CreatePsbtOptions)
    (hrbf : o.enableRBF = true)
    (haddr : ∀ u ∈ (fetchedUnspents env o).spendableUTXOs,
      u.scriptPubKey.address = o.address) :
    ∀ psbt, createPsbt env o = .ok psbt →
      ∀ pi ∈ psbt.inputs, pi.sequence = 0xfffffffd := by
  intro psbt h
  obtain ⟨p1, hloop, hin, _, _⟩ := createPsbt_ok_inv env o psbt h
  rw [hrbf, List.enum_eq_enumFrom] at hloop
  intro pi hpi
  exact addInputsLoop_rbf_seq env o.pubKey o.address _ 0 {} p1 haddr rfl
    (by simp) hloop pi (hin ▸ hpi)

/-- Witness for `rbf_sequence_two_below_max`. -/
theorem rbf_sequence_witness :
    createPsbt psbtEnvW psbtOptsW = .ok psbtW ∧
    (psbtW.inputs.map PsbtInput.sequence).all (fun sq => sq == 0xfffffffd) = true := by
  refine ⟨rfl, ?_⟩
  rw [List.all_eq_true]
  intro sq hsq
  obtain ⟨pi, hpi, hsq2⟩ := List.mem_map.mp hsq
  have hval := rbf_sequence_two_below_max psbtEnvW psbtOptsW rfl (by decide) psbtW rfl pi hpi
  rw [← hsq2, hval]
  rfl

/-! ### BRC20 balance gating (claim C8) -/

/-- One per-ticker balance record as the external ledger returns it
(`datasource.getAddressTokens`). -/
structure BRC20Balance where
  tick : String
  total : Int
  available : Int
  transferable : Int
deriving Repr, DecidableEq

/-- The balance triple `getBalances` returns. -/
structure BRC20BalanceTriple where
  total : Int
  available : Int
  transferable : Int
deriving Repr, DecidableEq

namespace BRC20TransferBase

/-- `BRC20TransferBase.getBalances`: find the holder's record for the ticker
in the externally fetched balances (passed in as `balances`); fail when there
is none. -/
def getBalances (balances : List BRC20Balance) (tick : String) :
    Except SdkError BRC20BalanceTriple :=
  match balances.find? (fun b => b.tick == tick) with
  | none => .error .noBalanceForToken
  | some b => .ok ⟨b.total, b.available, b.transferable⟩

/-- `BRC20TransferBase.hasEnoughTransferableBalance`: the boolean
`transferable >= amount`. -/
def hasEnoughTransferableBalance (balances : List BRC20Balance) (tick : String)
    (amount : Int) : Except SdkError Bool :=
  match getBalances balances tick with
  | .error e => .error e
  | .ok t => .ok (decide (t.transferable ≥ amount))

/-- `BRC20TransferBase.hasEnoughOverallBalance`: the boolean
`available >= amount`. -/
def hasEnoughOverallBalance (balances : List BRC20Balance) (tick : String)
    (amount : Int) : Except SdkError Bool :=
  match getBalances balances tick with
  | .error e => .error e
  | .ok t => .ok (decide (t.available ≥ amount))

end BRC20TransferBase

/-- C8: for a holder whose ledger record for the ticker is found,
`hasEnoughTransferableBalance` returns the pure comparison
`transferable >= amount` and `hasEnoughOverallBalance` returns
`available >= amount`; when the lookup finds no record for the ticker, both
fail with the no-balance error — and these are the only two behaviours. -/
theorem balance_gating (balances : List BRC20Balance) (tick : String) (amount : Int) :
    (∃ b, balances.find? (fun x => x.tick == tick) = some b ∧
      BRC20TransferBase.hasEnoughTransferableBalance balances tick amount =
        .ok (decide (b.transferable ≥ amount)) ∧
      BRC20TransferBase.hasEnoughOverallBalance balances tick amount =
        .ok (decide (b.available ≥ amount))) ∨
    (balances.find? (fun x => x.tick == tick) = none ∧
      BRC20TransferBase.hasEnoughTransferableBalance balances tick amount =
        .error .noBalanceForToken ∧
      BRC20TransferBase.hasEnoughOverallBalance balances tick amount =
        .error .noBalanceForToken) := by
  cases hf : balances.find? (fun x => x.tick == tick) with
  | none =>
    right
    refine ⟨by simp [hf], ?_, ?_⟩
    · simp [BRC20TransferBase.hasEnoughTransferableBalance, BRC20TransferBase.getBalances, hf]
    · simp [BRC20TransferBase.hasEnoughOverallBalance, BRC20TransferBase.getBalances, hf]
  | some b =>
    left
    refine ⟨b, by simp [hf], ?_, ?_⟩
    · simp [BRC20TransferBase.hasEnoughTransferableBalance, BRC20TransferBase.getBalances, hf]
    · simp [BRC20TransferBase.hasEnoughOverallBalance, BRC20TransferBase.getBalances, hf]
